import Mathlib

/-!
Verification of the MailCleaner core: the categorization decision policy
(`categorizer.py`) and the storage/aggregation layer (`models.py`).

The Python source is shallowly embedded: SQLite tables become Lean lists of
structure values, SQL queries become list functions, and the pure decision
cascade of `EmailCategorizer.categorize` becomes a Lean function.  Machine
floats (`0.7`, `0.5 + 0.1*hits`, category ratios) are modelled as exact
rationals; SQL `TEXT` timestamps (ISO-8601 strings, whose lexicographic
order is chronological) are modelled as `Option Nat` with SQLite's
NULL-smallest ordering.  Python regex `\w`/`\s` are modelled over ASCII.
-/

namespace MailCleaner

/-- The `EmailCategory` enum of `models.py`, members in source order. -/
inductive EmailCategory
  | SPAM
  | NEWSLETTER
  | ADS
  | SOCIAL
  | PROMOTIONS
  | IMPORTANT
  | UNCERTAIN
  | PERSONAL
deriving DecidableEq, Repr

/-- The `value` of each enum member (`EmailCategory.SPAM = "spam"`, ...). -/
def EmailCategory.value : EmailCategory → String
  | .SPAM => "spam"
  | .NEWSLETTER => "newsletter"
  | .ADS => "ads"
  | .SOCIAL => "social"
  | .PROMOTIONS => "promotions"
  | .IMPORTANT => "important"
  | .UNCERTAIN => "uncertain"
  | .PERSONAL => "personal"

/-- The list `[c.value for c in EmailCategory]` used by `train`. -/
def validCategoryValues : List String :=
  ["spam", "newsletter", "ads", "social", "promotions", "important", "uncertain", "personal"]

/-- The `Email` dataclass of `models.py` (also the row shape of the `emails`
table; the bookkeeping columns `created_at`/`updated_at`, which feed no query
output, are not modelled).  `date` is `Option Nat`: `none` is SQL NULL. -/
structure Email where
  id : String
  thread_id : String
  sender : String
  sender_email : String
  subject : String
  snippet : String
  body_preview : String
  date : Option Nat
  is_read : Bool
  labels : List String
  category : Option EmailCategory
  category_confidence : ℚ
  ai_summary : Option String
  unsubscribe_link : Option String
  unsubscribe_email : Option String
  user_action : Option String
deriving DecidableEq, Repr

/-! ### Categorizer: keyword and domain tables (`categorizer.py`) -/

/-- Helper turning string literals into character lists for substring tests. -/
def kws (l : List String) : List (List Char) := l.map String.toList

/-- The `CATEGORY_KEYWORDS` dict of `categorizer.py`, entries in insertion
order (Python dicts preserve insertion order, which `max` iteration uses). -/
def CATEGORY_KEYWORDS : List (EmailCategory × List (List Char)) :=
  [ (.SPAM, kws
      ["urgent", "winner", "congratulations", "claim", "prize", "lottery",
       "free money", "act now", "limited time", "click here", "nigerian",
       "prince", "inheritance", "million dollars", "wire transfer", "bitcoin",
       "crypto giveaway", "double your", "guaranteed"]),
    (.NEWSLETTER, kws
      ["newsletter", "digest", "weekly", "monthly", "roundup", "update",
       "news", "bulletin", "edition", "issue", "subscribe", "unsubscribe",
       "view in browser", "email preferences"]),
    (.ADS, kws
      ["sale", "discount", "off", "deal", "promo", "coupon", "savings",
       "limited offer", "buy now", "shop now", "order now", "free shipping",
       "clearance", "flash sale", "exclusive offer", "best price"]),
    (.SOCIAL, kws
      ["liked your", "commented on", "tagged you", "mentioned you",
       "friend request", "connection request", "followed you", "new follower",
       "linkedin", "facebook", "twitter", "instagram", "notification"]),
    (.PROMOTIONS, kws
      ["upgrade", "premium", "pro plan", "special offer", "invitation",
       "exclusive", "vip", "member", "reward", "points", "cashback",
       "refer a friend", "loyalty", "trial", "beta"]),
    (.IMPORTANT, kws
      ["invoice", "receipt", "payment", "confirmation", "booking",
       "appointment", "password reset", "security alert", "verify",
       "account", "order confirmation", "shipping", "delivery",
       "bank", "tax", "contract", "agreement", "urgent action required"]) ]

/-- The `DOMAIN_CATEGORIES` dict of `categorizer.py`, in insertion order. -/
def DOMAIN_CATEGORIES : List (EmailCategory × List (List Char)) :=
  [ (.SOCIAL, kws
      ["facebook.com", "linkedin.com", "twitter.com", "instagram.com",
       "pinterest.com", "tiktok.com", "snapchat.com", "reddit.com",
       "discord.com", "slack.com", "meetup.com"]),
    (.ADS, kws
      ["marketing", "promo", "deals", "offers", "newsletter", "mail.",
       "campaign", "mailchimp.com", "sendgrid.net", "amazonses.com"]),
    (.NEWSLETTER, kws
      ["substack.com", "mailchimp.com", "constantcontact.com",
       "medium.com", "ghost.io", "buttondown.email", "revue.co"]) ]

/-- Prefix test on character lists. -/
def isPrefOf : List Char → List Char → Bool
  | [], _ => true
  | _ :: _, [] => false
  | a :: as, b :: bs => a = b && isPrefOf as bs

/-- Python substring test `kw in text` on character lists. -/
def isSubstringOf (kw : List Char) : List Char → Bool
  | [] => kw.isEmpty
  | c :: cs => isPrefOf kw (c :: cs) || isSubstringOf kw cs

/-- Python `\s` over ASCII: space, tab, newline, vertical tab, form feed, CR. -/
def pyIsSpace (c : Char) : Bool :=
  c = ' ' || c = '\t' || c = '\n' || c = '\r' || c.val = 11 || c.val = 12

/-- Python `\w` over ASCII: alphanumerics and underscore. -/
def pyIsWord (c : Char) : Bool := c.isAlphanum || c = '_'

/-- The `_prepare_text` method: join sender/subject/snippet/body with spaces,
lowercase, replace each char matching `[^\w\s]` by a space, then collapse
whitespace runs (`re.sub(r"\s+", " ", text).strip()`, realized as
split-into-words and rejoin with single spaces). -/
def prepareText (e : Email) : List Char :=
  let raw := String.toList
    (String.intercalate " " [e.sender_email, e.subject, e.snippet, e.body_preview])
  let lowered := raw.map Char.toLower
  let cleaned := lowered.map (fun c => if pyIsWord c || pyIsSpace c then c else ' ')
  let toks := (cleaned.splitOnP pyIsSpace).filter (fun w => w ≠ [])
  List.intercalate [' '] toks

/-- The `_keyword_score` method: for each category, the number of its
keywords occurring as substrings of the text. -/
def keywordScores (text : List Char) : List (EmailCategory × Nat) :=
  CATEGORY_KEYWORDS.map (fun p => (p.1, p.2.countP (fun kw => isSubstringOf kw text)))

/-- Python `max(keyword_scores, key=keyword_scores.get)` paired with its
score: the first entry attaining the maximal score, in dict order. -/
def maxKeyword (scores : List (EmailCategory × Nat)) : EmailCategory × Nat :=
  match scores with
  | [] => (.UNCERTAIN, 0)
  | p :: rest => rest.foldl (fun best q => if q.2 > best.2 then q else best) p

/-- Dict lookup `keyword_scores[c]` (0 if absent, which never happens). -/
def scoreOf (scores : List (EmailCategory × Nat)) (c : EmailCategory) : Nat :=
  (scores.lookup c).getD 0

/-- The `_domain_category` method: the first category one of whose domain
fragments is a substring of the lowercased sender address. -/
def domainCategory (email : String) : Option EmailCategory :=
  let el := email.toList.map Char.toLower
  (DOMAIN_CATEGORIES.find? (fun p => p.2.any (fun d => isSubstringOf d el))).map Prod.fst

/-- Python truthiness of an optional string: `None` and `""` are falsy. -/
def optStrTruthy : Option String → Bool
  | none => false
  | some s => s ≠ ""

/-- The `bool(email.unsubscribe_link or email.unsubscribe_email)` test. -/
def hasUnsubscribe (e : Email) : Bool :=
  optStrTruthy e.unsubscribe_link || optStrTruthy e.unsubscribe_email

/-- The `EmailCategorizer.categorize` decision cascade, translated line by
line from `categorizer.py`.  The probabilistic pipeline is abstracted as a
`predict` function from prepared text to (argmax class, its probability);
when `is_trained` is false the source leaves `ml_category = None` and
`ml_confidence = 0.0`. -/
def categorize (isTrained : Bool) (predict : List Char → EmailCategory × ℚ)
    (email : Email) : EmailCategory × ℚ :=
  let text := prepareText email
  let mlCategory : Option EmailCategory := if isTrained then some (predict text).1 else none
  let mlConfidence : ℚ := if isTrained then (predict text).2 else 0
  let scores := keywordScores text
  let mk := maxKeyword scores
  let domainCat := domainCategory email.sender_email
  if mlConfidence > 7/10 ∧ mlCategory.isSome then
    (mlCategory.getD .UNCERTAIN, mlConfidence)
  else if mk.2 ≥ 3 then
    (mk.1, min (1/2 + (mk.2 : ℚ) * (1/10)) (85/100))
  else
    match domainCat with
    | some c => (c, 6/10)
    | none =>
      if hasUnsubscribe email then
        if scoreOf scores .NEWSLETTER > scoreOf scores .ADS then (.NEWSLETTER, 1/2)
        else if scoreOf scores .ADS > 0 then (.ADS, 1/2)
        else (.PROMOTIONS, 2/5)
      else if mlConfidence > 2/5 ∧ mlCategory.isSome then
        (mlCategory.getD .UNCERTAIN, mlConfidence)
      else if mk.2 > 0 then
        (mk.1, 3/10)
      else
        (.UNCERTAIN, 1/5)

/-- The categorization cascade as the specification words it: (1) trained
model above 0.7; (2) top keyword category with at least 3 hits at
`min(0.5 + 0.1*hits, 0.85)`; (3) curated domain list at 0.6; (4) unsubscribe
affordance resolving to newsletter/ads/promotions at 0.5/0.5/0.4; (5) model
above 0.4; (6) any nonzero keyword score, top category at 0.3; (7) uncertain
at 0.2. -/
def specCategorize (isTrained : Bool) (predict : List Char → EmailCategory × ℚ)
    (email : Email) : EmailCategory × ℚ :=
  let text := prepareText email
  let p := predict text
  let scores := keywordScores text
  let top := maxKeyword scores
  if isTrained ∧ p.2 > 7/10 then
    (p.1, p.2)
  else if top.2 ≥ 3 then
    (top.1, min (1/2 + (top.2 : ℚ) * (1/10)) (85/100))
  else
    match domainCategory email.sender_email with
    | some c => (c, 6/10)
    | none =>
      if hasUnsubscribe email then
        if scoreOf scores .NEWSLETTER > scoreOf scores .ADS then (.NEWSLETTER, 1/2)
        else if scoreOf scores .ADS > 0 then (.ADS, 1/2)
        else (.PROMOTIONS, 2/5)
      else if isTrained ∧ p.2 > 2/5 then
        (p.1, p.2)
      else if scores.any (fun q => q.2 ≠ 0) then
        (top.1, 3/10)
      else
        (.UNCERTAIN, 1/5)

/-! ### Categorizer training (`EmailCategorizer.train`) -/

/-- The persistent classifier state: the samples the sklearn pipeline was
last fitted on (`none` = fresh unfitted pipeline), the `is_trained` flag,
and the pickled model file on disk (`none` = no file). -/
structure CategorizerState where
  fitted : Option (List (String × String))
  is_trained : Bool
  modelFile : Option (List (String × String))
deriving DecidableEq, Repr

/-- The `EmailCategorizer.train` method: refuse below 10 samples, filter to
labels that are valid category values, refuse below 10 valid samples,
otherwise fit the pipeline on the filtered samples, set `is_trained`, and
write the model file.  Returns the Python return value paired with the
resulting state. -/
def train (s : CategorizerState) (trainingData : List (String × String)) :
    Bool × CategorizerState :=
  if trainingData.length < 10 then (false, s)
  else
    let filtered := trainingData.filter (fun p => p.2 ∈ validCategoryValues)
    if filtered.length < 10 then (false, s)
    else (true, { fitted := some filtered, is_trained := true, modelFile := some filtered })

/-! ### Helper lemmas about the keyword-score fold -/

/-- Concrete email carrying no classification signal, used by witnesses. -/
def emailBlank : Email :=
  { id := "", thread_id := "", sender := "", sender_email := "", subject := "",
    snippet := "", body_preview := "", date := none, is_read := true, labels := [],
    category := none, category_confidence := 0, ai_summary := none,
    unsubscribe_link := none, unsubscribe_email := none, user_action := none }

/-! ### Storage model (`models.py`): tables, queries, aggregation -/

/-- Row of the `sender_stats` table (the `updated_at` bookkeeping column,
which feeds no query output, is omitted). -/
structure SenderStatsRow where
  email : String
  name : String
  total_emails : Nat
  unread_count : Nat
  last_received : Option Nat
  has_unsubscribe : Bool
deriving DecidableEq, Repr

/-- Database state: the `emails` table, the derived `sender_stats` table,
and the key/value `settings` table.  The feedback, training-data and
unsubscribe-log tables play no part in the claims under verification. -/
structure DB where
  emails : List Email
  sender_stats : List SenderStatsRow
  settings : List (String × String)
deriving DecidableEq, Repr

/-- The SQL filter `user_action IS NULL OR user_action != 'delete'`. -/
def isActive (e : Email) : Bool :=
  match e.user_action with
  | none => true
  | some a => a ≠ "delete"

/-- SQLite ordering on the `date` column: NULL is smallest. -/
def sqlDateLt : Option Nat → Option Nat → Bool
  | none, none => false
  | none, some _ => true
  | some _, none => false
  | some a, some b => a < b

/-- SQL `MAX` over two dates (folding from `none` realizes the
NULL-ignoring aggregate `MAX(date)`). -/
def sqlDateMax (a b : Option Nat) : Option Nat := if sqlDateLt a b then b else a

/-- SQL `MAX` over two strings. -/
def strMax (a b : String) : String := if a < b then b else a

/-- Sort by a Boolean comes-before-or-ties relation (stable merge sort,
modelling a deterministic realization of SQL ORDER BY). -/
def sortBy {α : Type _} (le : α → α → Bool) (l : List α) : List α := l.mergeSort le

/-- SQL `ORDER BY date DESC` (SQLite NULLs, being smallest, come last). -/
def sortByDateDesc (l : List Email) : List Email :=
  sortBy (fun a b => !sqlDateLt a.date b.date) l

/-- Active rows of the `emails` table. -/
def activeRows (db : DB) : List Email := db.emails.filter isActive

/-- Distinct sender addresses of a row set (`GROUP BY sender_email` keys). -/
def sendersOf (rows : List Email) : List String :=
  (rows.map (fun e => e.sender_email)).dedup

/-- The `get_all_emails` query: read filter plus active filter, `ORDER BY
date DESC LIMIT ? OFFSET ?`. -/
def getAllEmails (readFilter : String) (limit offset : Nat) (db : DB) : List Email :=
  let pred : Email → Bool :=
    if readFilter = "read" then fun e => e.is_read && isActive e
    else if readFilter = "unread" then fun e => !e.is_read && isActive e
    else fun e => isActive e
  ((sortByDateDesc (db.emails.filter pred)).drop offset).take limit

/-- The `get_emails_by_category` query (`WHERE category = ?` compares the
stored category string). -/
def getEmailsByCategory (category : EmailCategory) (limit offset : Nat) (db : DB) :
    List Email :=
  ((sortByDateDesc (db.emails.filter (fun e =>
      decide (e.category.map EmailCategory.value = some category.value) &&
        isActive e))).drop offset).take limit

/-- The `get_emails_by_sender` query. -/
def getEmailsBySender (senderEmail : String) (limit offset : Nat) (db : DB) : List Email :=
  ((sortByDateDesc (db.emails.filter (fun e =>
      decide (e.sender_email = senderEmail) && isActive e))).drop offset).take limit

/-- Aggregate row returned by `get_top_sender_groups`. -/
structure SenderGroupRow where
  sender_email : String
  sender : String
  total : Nat
  unread : Nat
  has_unsubscribe : Bool
  last_received : Option Nat
deriving DecidableEq, Repr

/-- One `GROUP BY sender_email` aggregate of `get_top_sender_groups`.  The
bare `sender` column (not aggregated in the SQL) is modelled as the first
group row's value. -/
def groupRow (rows : List Email) (s : String) : SenderGroupRow :=
  let g := rows.filter (fun e => decide (e.sender_email = s))
  { sender_email := s
    sender := (g.head?.map (fun e => e.sender)).getD ""
    total := g.length
    unread := g.countP (fun e => !e.is_read)
    has_unsubscribe := g.any (fun e => e.unsubscribe_link.isSome || e.unsubscribe_email.isSome)
    last_received := g.foldl (fun m e => sqlDateMax m e.date) none }

/-- The `get_top_sender_groups` query: group active rows by sender, order
by total descending, take `limit`. -/
def getTopSenderGroups (limit : Nat) (db : DB) : List SenderGroupRow :=
  (sortBy (fun a b => decide (b.total ≤ a.total))
    ((sendersOf (activeRows db)).map (groupRow (activeRows db)))).take limit

/-- One rebuilt `sender_stats` row (the GROUP BY aggregates of
`refresh_sender_stats`). -/
def buildSenderRow (rows : List Email) (s : String) : SenderStatsRow :=
  let g := rows.filter (fun e => decide (e.sender_email = s))
  { email := s
    name := (g.map (fun e => e.sender)).foldl strMax ""
    total_emails := g.length
    unread_count := g.countP (fun e => !e.is_read)
    last_received := g.foldl (fun m e => sqlDateMax m e.date) none
    has_unsubscribe := g.any (fun e => e.unsubscribe_link.isSome || e.unsubscribe_email.isSome) }

/-- The `refresh_sender_stats` method: delete all `sender_stats` rows, then
insert one aggregated row per distinct sender of the active messages. -/
def refreshSenderStats (db : DB) : DB :=
  { db with sender_stats := (sendersOf (activeRows db)).map (buildSenderRow (activeRows db)) }

/-- The `get_sender_stats` query: `ORDER BY total_emails DESC LIMIT ?`. -/
def getSenderStats (limit : Nat) (db : DB) : List SenderStatsRow :=
  (sortBy (fun a b => decide (b.total_emails ≤ a.total_emails)) db.sender_stats).take limit

/-- The `get_total_senders_count` query. -/
def getTotalSendersCount (db : DB) : Nat := db.sender_stats.length

/-- Grouping key of `get_category_stats`: the category string of a row
(rows are prefiltered to non-null categories, so the default is never
consulted). -/
def catStrD (e : Email) : String := (e.category.map EmailCategory.value).getD ""

/-- Active rows with a non-null category (`WHERE category IS NOT NULL AND
...`). -/
def categorizedActive (db : DB) : List Email :=
  db.emails.filter (fun e => e.category.isSome && isActive e)

/-- The `get_category_stats` query: per category string, count and unread
count of the active categorized messages. -/
def categoryStats (db : DB) : List (String × Nat × Nat) :=
  let rows := categorizedActive db
  ((rows.map catStrD).dedup).map (fun c =>
    let g := rows.filter (fun e => decide (catStrD e = c))
    (c, g.length, g.countP (fun e => !e.is_read)))

/-- Python `stats.get(cat, {}).get('count', 0)`. -/
def statCount (stats : List (String × Nat × Nat)) (c : String) : Nat :=
  ((stats.find? (fun p => decide (p.1 = c))).map (fun p => p.2.1)).getD 0

/-- The mood block of `refresh_global_stats`.  Only the `text` field is
modelled: the emoji/colour/description of each branch are constants
determined by the text.  Ratio thresholds are exact rationals. -/
def moodOf (stats : List (String × Nat × Nat)) (total : Nat) : String :=
  if 0 < total then
    let imp := statCount stats "important"
    let junk := statCount stats "promotions" + statCount stats "ads" + statCount stats "spam"
    let social := statCount stats "social"
    let news := statCount stats "newsletter"
    let personal := statCount stats "personal"
    if total < 20 then "Zen"
    else if (imp : ℚ) / total > 3/10 then "On Fire"
    else if (junk : ℚ) / total > 1/2 then "Shopaholic"
    else if (social : ℚ) / total > 2/5 then "Socialite"
    else if (news : ℚ) / total > 2/5 then "News Junkie"
    else if (personal : ℚ) / total > 3/10 then "Loved"
    else "Chill"
  else "Balanced"

/-- The "Most Chatty" leaderboard query: `(sender_email, sender, count)`,
ordered by count descending, top 5. -/
def leaderboardChatty (db : DB) : List (String × String × Nat) :=
  let groups := (sendersOf (activeRows db)).map (fun s =>
    let g := (activeRows db).filter (fun e => decide (e.sender_email = s))
    (s, (g.head?.map (fun e => e.sender)).getD "", g.length))
  (sortBy (fun a b => decide (b.2.2 ≤ a.2.2)) groups).take 5

/-- The "Most Ignored" leaderboard query: `(sender_email, sender, count,
unread)`, ordered by unread descending then count descending, top 5. -/
def leaderboardSpammers (db : DB) : List (String × String × Nat × Nat) :=
  let groups := (sendersOf (activeRows db)).map (fun s =>
    let g := (activeRows db).filter (fun e => decide (e.sender_email = s))
    (s, (g.head?.map (fun e => e.sender)).getD "", g.length, g.countP (fun e => !e.is_read)))
  (sortBy (fun a b => decide (b.2.2.2 < a.2.2.2) ||
      (decide (a.2.2.2 = b.2.2.2) && decide (b.2.2.1 ≤ a.2.2.1))) groups).take 5

/-- The dashboard snapshot document assembled by `refresh_global_stats`. -/
structure Dashboard where
  total_emails : Nat
  total_unread : Nat
  total_senders : Nat
  deletable : Nat
  would_keep : Int
  categories : List (String × Nat × Nat)
  chatty : List (String × String × Nat)
  spammers : List (String × String × Nat × Nat)
  mood : String
  top_senders : List (String × String × Nat × Nat)
deriving DecidableEq, Repr

/-- Deterministic serialization of the snapshot, standing for `json.dumps`:
a fixed rendering, so byte-identity of serialized values follows from
equality of snapshots. -/
def serializeDashboard (d : Dashboard) : String := reprStr d

/-- The `get_setting` query. -/
def getSetting (k : String) (db : DB) : Option String :=
  (db.settings.find? (fun p => decide (p.1 = k))).map (fun p => p.2)

/-- The `set_setting` upsert (`INSERT OR REPLACE` keyed by `key`). -/
def setSetting (k v : String) (db : DB) : DB :=
  { db with settings := (k, v) :: db.settings.filter (fun p => decide (p.1 ≠ k)) }

/-- The snapshot computed by `refresh_global_stats` from the current
`emails` and `sender_stats` tables. -/
def buildDashboard (db : DB) : Dashboard :=
  let stats := categoryStats db
  let senderTop := getSenderStats 10 db
  let total := (stats.map (fun p => p.2.1)).sum
  let deletable := ((stats.filter (fun p =>
      decide (p.1 ∉ (["important", "uncertain", "personal"] : List String)))).map
      (fun p => p.2.1)).sum
  { total_emails := total
    total_unread := (stats.map (fun p => p.2.2)).sum
    total_senders := getTotalSendersCount db
    deletable := deletable
    would_keep := (total : Int) - (deletable : Int)
    categories := stats
    chatty := leaderboardChatty db
    spammers := leaderboardSpammers db
    mood := moodOf stats total
    top_senders := senderTop.map (fun r => (r.email, r.name, r.total_emails, r.unread_count)) }

/-- The `refresh_global_stats` method: compute the snapshot and overwrite
the `dashboard_cache` settings entry with its serialization. -/
def refreshGlobalStats (db : DB) : DB :=
  setSetting "dashboard_cache" (serializeDashboard (buildDashboard db)) db

/-- The `refresh_all_stats` method: sender refresh, then dashboard
refresh. -/
def refreshAllStats (db : DB) : DB := refreshGlobalStats (refreshSenderStats db)

/-- The `mark_emails_deleted` update: set `user_action = 'delete'` on the
rows whose id is listed; no row is removed. -/
def markEmailsDeleted (ids : List String) (db : DB) : DB :=
  { db with emails := db.emails.map (fun e =>
      if e.id ∈ ids then { e with user_action := some "delete" } else e) }

/-- Row shape returned by `get_subscription_stats`. -/
structure SubscriptionRow where
  sender_email : String
  sender : String
  count : Nat
  unread_count : Nat
  last_read_date : Option Nat
  last_received_date : Option Nat
  sample_id : String
  unsubscribe_link : Option String
  unsubscribe_email : Option String
deriving DecidableEq, Repr

/-- The `category IN ('newsletter', 'promotions')` filter. -/
def inSubCats (e : Email) : Bool :=
  decide (e.category.map EmailCategory.value = some "newsletter") ||
    decide (e.category.map EmailCategory.value = some "promotions")

/-- The grouped subquery of `get_subscription_stats`: one aggregate row per
sender over active newsletter/promotions messages, kept when its count
exceeds 1 (`HAVING count > 1`); unsubscribe fields not yet filled in. -/
def subsRows (db : DB) : List SubscriptionRow :=
  let rows := db.emails.filter (fun e => inSubCats e && isActive e)
  (((rows.map (fun e => e.sender_email)).dedup).map (fun s =>
    let g := rows.filter (fun e => decide (e.sender_email = s))
    { sender_email := s
      sender := (g.head?.map (fun e => e.sender)).getD ""
      count := g.length
      unread_count := g.countP (fun e => !e.is_read)
      last_read_date := (g.filter (fun e => e.is_read)).foldl (fun m e => sqlDateMax m e.date) none
      last_received_date := g.foldl (fun m e => sqlDateMax m e.date) none
      sample_id := (g.map (fun e => e.id)).foldl strMax ""
      unsubscribe_link := none
      unsubscribe_email := none })).filter (fun r => decide (1 < r.count))

/-- One step of selecting the row a `ORDER BY date DESC LIMIT 1` scan
returns: keep the incumbent unless the candidate's date is strictly
greater (deterministic first-of-the-maximal-dates tie policy). -/
def latestPick (acc : Option Email) (e : Email) : Option Email :=
  match acc with
  | none => some e
  | some m => if sqlDateLt m.date e.date then some e else some m

/-- The per-sender sample query of `get_subscription_stats`: `SELECT
unsubscribe_link, unsubscribe_email FROM emails WHERE sender_email = ?
ORDER BY date DESC LIMIT 1` — over ALL messages of the sender (no
category and no user-action filter in the source). -/
def latestEmailOf (emails : List Email) (s : String) : Option Email :=
  (emails.filter (fun e => decide (e.sender_email = s))).foldl latestPick none

/-- The `get_subscription_stats` query: qualifying senders ordered by count
descending, truncated to `limit`, each enriched with the unsubscribe fields
of the sender's latest message. -/
def getSubscriptionStats (limit : Nat) (db : DB) : List SubscriptionRow :=
  ((sortBy (fun a b => decide (b.count ≤ a.count)) (subsRows db)).take limit).map (fun r =>
    match latestEmailOf db.emails r.sender_email with
    | some m => { r with unsubscribe_link := m.unsubscribe_link,
                         unsubscribe_email := m.unsubscribe_email }
    | none => r)

/-- The `/api/stats` handler of `web_app.py`: serve the cached snapshot
verbatim when one is present (the handler performs no consistency check on
it), otherwise run `refresh_all_stats` and serve the fresh cache.  Returns
the served payload paired with the resulting database state. -/
def apiStats (db : DB) : String × DB :=
  match getSetting "dashboard_cache" db with
  | some cached => (cached, db)
  | none =>
      let db2 := refreshAllStats db
      ((getSetting "dashboard_cache" db2).getD "", db2)

/-! ### Mood decision table -/

/-- The mood decision table as the specification words it: rules evaluated
in order against per-category ratios of the active categorized total, first
match winning; a total of zero is defined as Balanced (no division). -/
def specMoodText (stats : List (String × Nat × Nat)) (total : Nat) : String :=
  if total = 0 then "Balanced"
  else if 0 < total ∧ total < 20 then "Zen"
  else if (statCount stats "important" : ℚ) / total > 3/10 then "On Fire"
  else if ((statCount stats "promotions" + statCount stats "ads" +
      statCount stats "spam" : ℕ) : ℚ) / total > 1/2 then "Shopaholic"
  else if (statCount stats "social" : ℚ) / total > 2/5 then "Socialite"
  else if (statCount stats "newsletter" : ℚ) / total > 2/5 then "News Junkie"
  else if (statCount stats "personal" : ℚ) / total > 3/10 then "Loved"
  else "Chill"

/-! ### Refresh idempotence -/

/-! ### Dashboard cache inconsistency -/

/-- Concrete active categorized email from sender `a@x.com`. -/
def emailA : Email :=
  { id := "m1", thread_id := "t1", sender := "Alice", sender_email := "a@x.com",
    subject := "s", snippet := "sn", body_preview := "b", date := some 100,
    is_read := false, labels := [], category := some .SPAM, category_confidence := 9/10,
    ai_summary := none, unsubscribe_link := none, unsubscribe_email := none,
    user_action := none }

/-- State whose `emails` table is nonempty while `sender_stats` is empty:
running the dashboard refresh alone on it caches an inconsistent snapshot
(positive total_emails, zero total_senders). -/
def dbC9pre : DB := { emails := [emailA], sender_stats := [], settings := [] }

/-- The state `/api/stats` then reads: the inconsistent snapshot is the
cached value. -/
def dbC9 : DB :=
  { emails := [emailA], sender_stats := [],
    settings := [("dashboard_cache", serializeDashboard (buildDashboard dbC9pre))] }

/-! ### Category statistics as direct counts -/

/-- Concrete active message categorized `personal`. -/
def emailP : Email :=
  { id := "p1", thread_id := "tp", sender := "Pat", sender_email := "p@x.com",
    subject := "s", snippet := "sn", body_preview := "b", date := some 50,
    is_read := true, labels := [], category := some .PERSONAL, category_confidence := 1/2,
    ai_summary := none, unsubscribe_link := none, unsubscribe_email := none,
    user_action := none }

/-- Database holding a single active `personal` message. -/
def dbC4 : DB := { emails := [emailP], sender_stats := [], settings := [] }

/-- Physically removing the logically deleted rows (used to express that a
query ignores them: the query's result is invariant under the purge). -/
def purgeDeleted (db : DB) : DB := { db with emails := db.emails.filter isActive }

/-- Concrete unread ads email from sender `x@y.com`. -/
def emailX1 : Email :=
  { id := "x1", thread_id := "tx1", sender := "Xavier", sender_email := "x@y.com",
    subject := "s1", snippet := "sn1", body_preview := "b1", date := some 10,
    is_read := false, labels := [], category := some .ADS, category_confidence := 3/5,
    ai_summary := none, unsubscribe_link := some "http://u/x", unsubscribe_email := none,
    user_action := none }

/-- Second concrete email from sender `x@y.com`. -/
def emailX2 : Email :=
  { id := "x2", thread_id := "tx2", sender := "Xavier", sender_email := "x@y.com",
    subject := "s2", snippet := "sn2", body_preview := "b2", date := some 20,
    is_read := true, labels := [], category := some .ADS, category_confidence := 3/5,
    ai_summary := none, unsubscribe_link := none, unsubscribe_email := none,
    user_action := none }

/-- Concrete email from a sender that is kept. -/
def emailK : Email :=
  { id := "k1", thread_id := "tk", sender := "Kim", sender_email := "keep@y.com",
    subject := "s3", snippet := "sn3", body_preview := "b3", date := some 30,
    is_read := false, labels := [], category := some .IMPORTANT, category_confidence := 4/5,
    ai_summary := none, unsubscribe_link := none, unsubscribe_email := none,
    user_action := none }

/-- Database with two senders, used by witnesses. -/
def dbC6 : DB := { emails := [emailX1, emailX2, emailK], sender_stats := [], settings := [] }

/-- Concrete unread newsletter email builder for subscription examples. -/
def subEmail (i : String) (s : String) (d : Nat) : Email :=
  { id := i, thread_id := i, sender := s, sender_email := s, subject := "n",
    snippet := "n", body_preview := "n", date := some d, is_read := false, labels := [],
    category := some .NEWSLETTER, category_confidence := 1/2, ai_summary := none,
    unsubscribe_link := some "http://u", unsubscribe_email := none, user_action := none }

/-- Store with two subscription-qualifying senders (three and two active
newsletter messages). -/
def dbC3 : DB :=
  { emails := [subEmail "a1" "a@x.com" 1, subEmail "a2" "a@x.com" 2,
               subEmail "a3" "a@x.com" 3, subEmail "b1" "b@x.com" 1,
               subEmail "b2" "b@x.com" 2],
    sender_stats := [], settings := [] }

/-! ### Theorems -/

/-- The best-score fold of `maxKeyword` either keeps its seed or picks a
list element. -/
theorem foldl_pick_mem (l : List (EmailCategory × Nat)) (p : EmailCategory × Nat) :
    l.foldl (fun best q => if q.2 > best.2 then q else best) p = p ∨
      l.foldl (fun best q => if q.2 > best.2 then q else best) p ∈ l := by
  induction l generalizing p with
  | nil => exact Or.inl rfl
  | cons r t ih =>
    simp only [List.foldl_cons]
    rcases ih (if r.2 > p.2 then r else p) with h | h
    · rw [h]
      by_cases hr : r.2 > p.2
      · exact Or.inr (by simp [hr])
      · exact Or.inl (by simp [hr])
    · exact Or.inr (List.mem_cons_of_mem _ h)

/-- The best-score fold never drops below its seed's score. -/
theorem foldl_pick_le_seed (l : List (EmailCategory × Nat)) (p : EmailCategory × Nat) :
    p.2 ≤ (l.foldl (fun best q => if q.2 > best.2 then q else best) p).2 := by
  induction l generalizing p with
  | nil => exact le_rfl
  | cons r t ih =>
    simp only [List.foldl_cons]
    refine le_trans ?_ (ih (if r.2 > p.2 then r else p))
    by_cases hr : r.2 > p.2
    · simp only [if_pos hr]; omega
    · simp only [if_neg hr]; exact le_rfl

/-- The best-score fold dominates the score of every list element. -/
theorem foldl_pick_le_mem (l : List (EmailCategory × Nat)) (p q : EmailCategory × Nat)
    (hq : q ∈ l) :
    q.2 ≤ (l.foldl (fun best q => if q.2 > best.2 then q else best) p).2 := by
  induction l generalizing p with
  | nil => cases hq
  | cons r t ih =>
    simp only [List.foldl_cons]
    rcases List.mem_cons.mp hq with h | h
    · subst h
      refine le_trans ?_ (foldl_pick_le_seed t _)
      by_cases hr : q.2 > p.2
      · simp only [if_pos hr]; exact le_rfl
      · simp only [if_neg hr]; omega
    · exact ih _ h

/-- Applied to a nonempty score list, `maxKeyword` returns one of its
entries. -/
theorem maxKeyword_mem (scores : List (EmailCategory × Nat)) (h : scores ≠ []) :
    maxKeyword scores ∈ scores := by
  cases scores with
  | nil => exact absurd rfl h
  | cons p rest =>
    simp only [maxKeyword]
    rcases foldl_pick_mem rest p with h1 | h1
    · rw [h1]; exact List.mem_cons_self _ _
    · exact List.mem_cons_of_mem _ h1

/-- The entry `maxKeyword` returns has maximal score. -/
theorem maxKeyword_ge (scores : List (EmailCategory × Nat)) (q : EmailCategory × Nat)
    (hq : q ∈ scores) : q.2 ≤ (maxKeyword scores).2 := by
  cases scores with
  | nil => cases hq
  | cons p rest =>
    simp only [maxKeyword]
    rcases List.mem_cons.mp hq with h | h
    · subst h; exact foldl_pick_le_seed rest q
    · exact foldl_pick_le_mem rest p q h

/-- The maximal keyword score is positive exactly when some keyword score is
nonzero. -/
theorem maxKeyword_snd_pos_iff (scores : List (EmailCategory × Nat)) (hne : scores ≠ []) :
    0 < (maxKeyword scores).2 ↔ scores.any (fun q => q.2 ≠ 0) = true := by
  constructor
  · intro h
    refine List.any_eq_true.mpr ⟨maxKeyword scores, maxKeyword_mem scores hne, ?_⟩
    simpa using Nat.pos_iff_ne_zero.mp h
  · intro h
    obtain ⟨q, hq, hq2⟩ := List.any_eq_true.mp h
    have := maxKeyword_ge scores q hq
    simp only [ne_eq, decide_eq_true_eq] at hq2
    omega

/-- The keyword score list is never empty (there are six keyword
categories). -/
theorem keywordScores_ne_nil (text : List Char) : keywordScores text ≠ [] := by
  simp [keywordScores, CATEGORY_KEYWORDS]

/-- A category returned by `maxKeyword` over the keyword table is one of the
six keyword categories; in particular it is never `personal`. -/
theorem maxKeyword_fst_ne_personal (text : List Char) :
    (maxKeyword (keywordScores text)).1 ≠ EmailCategory.PERSONAL := by
  have hm := maxKeyword_mem (keywordScores text) (keywordScores_ne_nil text)
  rw [keywordScores] at hm
  obtain ⟨p, hp, hpm⟩ := List.mem_map.mp hm
  rw [keywordScores, ← hpm]
  simp only [CATEGORY_KEYWORDS, List.mem_cons, List.not_mem_nil, or_false] at hp
  rcases hp with h | h | h | h | h | h <;> subst h <;> simp

/-- A category returned by `_domain_category` is social, ads, or newsletter;
in particular it is never `personal`. -/
theorem domainCategory_ne_personal (s : String) (c : EmailCategory)
    (h : domainCategory s = some c) : c ≠ EmailCategory.PERSONAL := by
  unfold domainCategory at h
  rw [Option.map_eq_some'] at h
  obtain ⟨p, hp, hpc⟩ := h
  have hmem := List.mem_of_find?_eq_some hp
  simp only [DOMAIN_CATEGORIES, List.mem_cons, List.not_mem_nil, or_false] at hmem
  rcases hmem with hh | hh | hh <;> rw [← hpc, hh] <;> simp

/-- Restatement of `maxKeyword_snd_pos_iff` oriented for cascade step 6. -/
theorem any_nonzero_iff_max_pos (text : List Char) :
    ((keywordScores text).any (fun q => q.2 ≠ 0) = true) ↔
      0 < (maxKeyword (keywordScores text)).2 :=
  (maxKeyword_snd_pos_iff _ (keywordScores_ne_nil text)).symm

/-- Shared helper: the source cascade equals the specification cascade. -/
theorem categorize_eq_spec (isTrained : Bool) (predict : List Char → EmailCategory × ℚ)
    (email : Email) :
    categorize isTrained predict email = specCategorize isTrained predict email := by
  unfold categorize specCategorize
  cases isTrained with
  | false =>
    by_cases h2 : 3 ≤ (maxKeyword (keywordScores (prepareText email))).2
    · simp [h2, (show ¬((0:ℚ) > 7/10) by norm_num)]
    · rcases hd : domainCategory email.sender_email with _ | c
      · by_cases hu : hasUnsubscribe email = true
        · simp [h2, hd, hu, (show ¬((0:ℚ) > 7/10) by norm_num)]
        · by_cases h6 : 0 < (maxKeyword (keywordScores (prepareText email))).2
          · have hc := (any_nonzero_iff_max_pos (prepareText email)).mpr h6
            simp [h2, hd, hu, h6,
              (show ¬((0:ℚ) > 7/10) by norm_num), (show ¬((0:ℚ) > 2/5) by norm_num)]
            rw [if_pos (by simpa using hc)]
          · have h6' : ¬ ((keywordScores (prepareText email)).any (fun q => q.2 ≠ 0) = true) :=
              fun hh => h6 ((any_nonzero_iff_max_pos (prepareText email)).mp hh)
            simp [h2, hd, hu, h6,
              (show ¬((0:ℚ) > 7/10) by norm_num), (show ¬((0:ℚ) > 2/5) by norm_num)]
            rw [if_neg (by simpa using h6')]
      · simp [h2, hd, (show ¬((0:ℚ) > 7/10) by norm_num)]
  | true =>
    by_cases h1 : (predict (prepareText email)).2 > 7/10
    · simp [h1]
    · by_cases h2 : 3 ≤ (maxKeyword (keywordScores (prepareText email))).2
      · simp [h1, h2]
      · rcases hd : domainCategory email.sender_email with _ | c
        · by_cases hu : hasUnsubscribe email = true
          · simp [h1, h2, hd, hu]
          · by_cases h5 : (predict (prepareText email)).2 > 2/5
            · simp [h1, h2, hd, hu, h5]
            · by_cases h6 : 0 < (maxKeyword (keywordScores (prepareText email))).2
              · have hc := (any_nonzero_iff_max_pos (prepareText email)).mpr h6
                simp [h1, h2, hd, hu, h5, h6]
                rw [if_pos (by simpa using hc)]
              · have h6' : ¬ ((keywordScores (prepareText email)).any (fun q => q.2 ≠ 0) = true) :=
                  fun hh => h6 ((any_nonzero_iff_max_pos (prepareText email)).mp hh)
                simp [h1, h2, hd, hu, h5, h6]
                rw [if_neg (by simpa using h6')]
        · simp [h1, h2, hd]

/-- Shared helper: untrained model and no keyword/domain/unsubscribe signal
falls through to `(uncertain, 0.2)`. -/
theorem categorize_untrained_no_signal (predict : List Char → EmailCategory × ℚ)
    (email : Email)
    (h0 : (maxKeyword (keywordScores (prepareText email))).2 = 0)
    (hd : domainCategory email.sender_email = none)
    (hu : hasUnsubscribe email = false) :
    categorize false predict email = (EmailCategory.UNCERTAIN, 1/5) := by
  unfold categorize
  simp [h0, hd, hu, (show ¬((0:ℚ) > 7/10) by norm_num), (show ¬((0:ℚ) > 2/5) by norm_num)]

/-- C1: for every email, `categorize` returns the result of the first
matching rule of the fixed seven-step cascade (formalized by the
specification-side definition `specCategorize`), and in particular an
untrained model with no keyword, domain, or unsubscribe signal yields
exactly `(uncertain, 0.2)`. -/
theorem categorize_follows_cascade (isTrained : Bool)
    (predict : List Char → EmailCategory × ℚ) (email : Email) :
    categorize isTrained predict email = specCategorize isTrained predict email ∧
    (isTrained = false →
      (maxKeyword (keywordScores (prepareText email))).2 = 0 →
      domainCategory email.sender_email = none →
      hasUnsubscribe email = false →
      categorize isTrained predict email = (EmailCategory.UNCERTAIN, 1/5)) :=
  ⟨categorize_eq_spec isTrained predict email,
   fun hT h0 hd hu => by
     subst hT; exact categorize_untrained_no_signal predict email h0 hd hu⟩

/-- Witness for C1: a concrete no-signal email under an untrained model. -/
theorem categorize_follows_cascade_witness :
    categorize false (fun _ => (EmailCategory.UNCERTAIN, 0)) emailBlank =
      (EmailCategory.UNCERTAIN, 1/5) :=
  (categorize_follows_cascade false (fun _ => (EmailCategory.UNCERTAIN, 0)) emailBlank).2
    rfl (by decide) (by decide) (by decide)

/-- C10: with an untrained probabilistic model, `categorize` never returns
the category `personal`: the keyword and domain tables contain no personal
entries and every fallback branch yields another category. -/
theorem untrained_never_personal (predict : List Char → EmailCategory × ℚ)
    (email : Email) :
    (categorize false predict email).1 ≠ EmailCategory.PERSONAL := by
  rw [categorize_eq_spec]
  unfold specCategorize
  by_cases h2 : 3 ≤ (maxKeyword (keywordScores (prepareText email))).2
  · simp [h2, maxKeyword_fst_ne_personal]
  · rcases hd : domainCategory email.sender_email with _ | c
    · by_cases hu : hasUnsubscribe email = true
      · by_cases hna : scoreOf (keywordScores (prepareText email)) .ADS <
            scoreOf (keywordScores (prepareText email)) .NEWSLETTER
        · simp [h2, hd, hu, hna]
        · by_cases ha : 0 < scoreOf (keywordScores (prepareText email)) .ADS
          · simp [h2, hd, hu, hna, ha]
          · simp [h2, hd, hu, hna, ha]
      · by_cases h6 : (keywordScores (prepareText email)).any (fun q => q.2 ≠ 0) = true
        · simp [h2, hd, hu]
          rw [if_pos (by simpa using h6)]
          simpa using maxKeyword_fst_ne_personal (prepareText email)
        · simp [h2, hd, hu]
          rw [if_neg (by simpa using h6)]
          simp
    · have hc := domainCategory_ne_personal email.sender_email c hd
      simp [h2, hd, hc]

/-- C8: `train` invoked with fewer than 10 samples, or with fewer than 10
samples whose label is a valid category value, returns failure and leaves
the classifier state entirely unchanged (no refit, flag keeps its prior
value, no model file written). -/
theorem train_insufficient_data (s : CategorizerState) (td : List (String × String))
    (h : td.length < 10 ∨ (td.filter (fun p => p.2 ∈ validCategoryValues)).length < 10) :
    train s td = (false, s) := by
  unfold train
  rcases h with h | h
  · simp [h]
  · by_cases h1 : td.length < 10 <;> simp [h1, h]

/-- Witness for C8: ten samples of which only nine carry valid labels,
against a previously trained state. -/
theorem train_insufficient_data_witness :
    train ⟨some [("seed", "spam")], true, some [("seed", "spam")]⟩
        [("t1", "spam"), ("t2", "ads"), ("t3", "social"), ("t4", "spam"), ("t5", "news"),
         ("t6", "important"), ("t7", "personal"), ("t8", "uncertain"), ("t9", "promotions"),
         ("t10", "newsletter")] =
      (false, ⟨some [("seed", "spam")], true, some [("seed", "spam")]⟩) :=
  train_insufficient_data _ _ (Or.inr (by decide))

/-- Shared helper: the source mood cascade equals the specification's. -/
theorem moodOf_eq_spec (stats : List (String × Nat × Nat)) (total : Nat) :
    moodOf stats total = specMoodText stats total := by
  unfold moodOf specMoodText
  by_cases h0 : total = 0
  · simp [h0]
  · have hp : 0 < total := Nat.pos_of_ne_zero h0
    simp [h0, hp]

/-- C5: the dashboard snapshot's mood follows the ordered decision table of
`specMoodText` over the per-category counts of active categorized messages,
with a zero total yielding Balanced and the final default being Chill. -/
theorem dashboard_mood_decision_table (db : DB) :
    (buildDashboard db).mood =
      specMoodText (categoryStats db) (((categoryStats db).map (fun p => p.2.1)).sum) :=
  moodOf_eq_spec _ _

/-- The snapshot builder reads only the `emails` and `sender_stats`
tables. -/
theorem buildDashboard_ext (db1 db2 : DB) (he : db1.emails = db2.emails)
    (hs : db1.sender_stats = db2.sender_stats) :
    buildDashboard db1 = buildDashboard db2 := by
  obtain ⟨e1, s1, t1⟩ := db1
  obtain ⟨e2, s2, t2⟩ := db2
  have he' : e1 = e2 := he
  have hs' : s1 = s2 := hs
  subst he'
  subst hs'
  rfl

/-- A freshly written settings key reads back its value. -/
theorem getSetting_setSetting (k v : String) (db : DB) :
    getSetting k (setSetting k v db) = some v := by
  simp [getSetting, setSetting]

/-- C7: running `refresh_all_stats` twice with no intervening mutation of
the `emails` table caches a byte-identical serialized dashboard value. -/
theorem refresh_all_stats_idempotent (db : DB) :
    getSetting "dashboard_cache" (refreshAllStats (refreshAllStats db)) =
      getSetting "dashboard_cache" (refreshAllStats db) := by
  unfold refreshAllStats refreshGlobalStats
  rw [getSetting_setSetting, getSetting_setSetting,
    buildDashboard_ext (refreshSenderStats (setSetting "dashboard_cache"
        (serializeDashboard (buildDashboard (refreshSenderStats db))) (refreshSenderStats db)))
      (refreshSenderStats db) rfl rfl]

/-- C9 (code bug): the cached snapshot of `dbC9` is contradictory (one
email, zero senders), yet the `/api/stats` reader serves it verbatim and
performs no refresh, while a sender refresh would have reported one
sender. -/
theorem api_stats_serves_inconsistent_cache :
    (buildDashboard dbC9pre).total_emails = 1 ∧
    (buildDashboard dbC9pre).total_senders = 0 ∧
    apiStats dbC9 = (serializeDashboard (buildDashboard dbC9pre), dbC9) ∧
    (buildDashboard (refreshSenderStats dbC9)).total_senders = 1 :=
  ⟨rfl, rfl, rfl, rfl⟩

/-- Keyed lookup through a map that tags each key with a computed value. -/
theorem find?_keyed_map {β : Type _} (keys : List String) (f : String → β) (c : String) :
    (keys.map (fun k => (k, f k))).find? (fun p => decide (p.1 = c)) =
      if c ∈ keys then some (c, f c) else none := by
  induction keys with
  | nil => simp
  | cons k t ih =>
    by_cases h : k = c
    · subst h
      simp [List.find?_cons_of_pos]
    · rw [List.map_cons, List.find?_cons_of_neg _ (by simp [h]), ih]
      simp [h, Ne.symm h]

/-- Occurrence count through a map equals a predicate count. -/
theorem count_map_key {α β : Type _} [DecidableEq β] (f : α → β) (l : List α) (b : β) :
    (l.map f).count b = l.countP (fun a => decide (f a = b)) := by
  rw [List.count_eq_countP, List.countP_map]
  apply List.countP_congr
  intro x hx
  simp [Function.comp]

/-- The count entry of `get_category_stats` for a category string is the
direct count of active categorized messages carrying it. -/
theorem statCount_eq_catCount (db : DB) (c : String) :
    statCount (categoryStats db) c =
      (categorizedActive db).countP (fun e => decide (catStrD e = c)) := by
  unfold statCount categoryStats
  rw [find?_keyed_map]
  by_cases h : c ∈ ((categorizedActive db).map catStrD).dedup
  · simp only [h, if_true, Option.map_some', Option.getD_some]
    rw [List.countP_eq_length_filter]
  · simp only [h, if_false, Option.map_none', Option.getD_none]
    symm
    rw [List.countP_eq_zero]
    intro e he
    simp only [decide_eq_true_eq]
    intro hc
    exact h (List.mem_dedup.mpr (List.mem_map.mpr ⟨e, he, hc⟩))

/-- The deletable sum of the snapshot equals the direct count of active
categorized messages outside the protected category strings. -/
theorem deletable_eq_countP (db : DB) :
    (buildDashboard db).deletable =
      (categorizedActive db).countP (fun e =>
        decide (catStrD e ∉ (["important", "uncertain", "personal"] : List String))) := by
  show ((((categoryStats db).filter _).map _).sum) = _
  unfold categoryStats
  rw [List.filter_map, List.map_map]
  have h1 : (((categorizedActive db).map catStrD).dedup.filter
        ((fun p : String × Nat × Nat =>
            decide (p.1 ∉ (["important", "uncertain", "personal"] : List String))) ∘
          (fun c => (c, ((categorizedActive db).filter (fun e => decide (catStrD e = c))).length,
            ((categorizedActive db).filter (fun e => decide (catStrD e = c))).countP
              (fun e => !e.is_read))))) =
      (((categorizedActive db).map catStrD).dedup.filter
        (fun c => decide (c ∉ (["important", "uncertain", "personal"] : List String)))) := by
    apply List.filter_congr
    intro c hc
    rfl
  rw [h1]
  have h2 := List.sum_map_count_dedup_filter_eq_countP
    (fun s => decide (s ∉ (["important", "uncertain", "personal"] : List String)))
    ((categorizedActive db).map catStrD)
  rw [List.countP_map] at h2
  simp only [Function.comp_def] at h2
  rw [← h2]
  congr 1
  apply List.map_congr_left
  intro c hc
  show ((categorizedActive db).filter (fun e => decide (catStrD e = c))).length = _
  rw [count_map_key, List.countP_eq_length_filter]

/-- C4 counterexample: with one active message categorized `personal`, the
snapshot's deletable count is 0, though exactly one active categorized
message lies outside the categories important and uncertain — so the
protected set of the deletable computation is not exactly
{important, uncertain}. -/
theorem dashboard_deletable_counterexample :
    (buildDashboard dbC4).deletable = 0 ∧
    (categorizedActive dbC4).countP (fun e =>
      decide (catStrD e ≠ "important") && decide (catStrD e ≠ "uncertain")) = 1 :=
  ⟨rfl, rfl⟩

/-- C4 (amended): the snapshot's deletable count equals the number of
active categorized messages whose category is outside the protected set
{important, uncertain, personal}, and would_keep is total_emails minus
deletable. -/
theorem dashboard_deletable_amended (db : DB) :
    (buildDashboard db).deletable =
      (categorizedActive db).countP (fun e =>
        decide (catStrD e ∉ (["important", "uncertain", "personal"] : List String))) ∧
    (buildDashboard db).would_keep =
      ((buildDashboard db).total_emails : Int) - ((buildDashboard db).deletable : Int) :=
  ⟨deletable_eq_countP db, rfl⟩

/-- Mapping sender rows back to their keys recovers the key list. -/
theorem map_email_buildSenderRow (rows : List Email) (l : List String) :
    (l.map (buildSenderRow rows)).map (fun r => r.email) = l := by
  rw [List.map_map]
  have h : ∀ s ∈ l, ((fun r : SenderStatsRow => r.email) ∘ buildSenderRow rows) s = s :=
    fun s _ => rfl
  rw [List.map_congr_left h]
  exact List.map_id _

/-- C2: immediately after `refresh_sender_stats`, the `sender_stats` table
holds exactly one row per distinct sender among active messages — each row
being the aggregate (count, unread count, max date, OR of unsubscribe
presence) of its own sender's active messages — and the totals sum to the
number of active messages. -/
theorem refresh_sender_stats_partitions (db : DB) :
    ((refreshSenderStats db).sender_stats.map (fun r => r.email)).Nodup ∧
    (∀ s : String, s ∈ (refreshSenderStats db).sender_stats.map (fun r => r.email) ↔
      ∃ e ∈ activeRows db, e.sender_email = s) ∧
    (∀ r ∈ (refreshSenderStats db).sender_stats,
      r.total_emails =
        ((activeRows db).filter (fun e => decide (e.sender_email = r.email))).length ∧
      r.unread_count =
        ((activeRows db).filter (fun e => decide (e.sender_email = r.email))).countP
          (fun e => !e.is_read) ∧
      r.last_received =
        ((activeRows db).filter (fun e => decide (e.sender_email = r.email))).foldl
          (fun m e => sqlDateMax m e.date) none ∧
      r.has_unsubscribe =
        ((activeRows db).filter (fun e => decide (e.sender_email = r.email))).any
          (fun e => e.unsubscribe_link.isSome || e.unsubscribe_email.isSome)) ∧
    ((refreshSenderStats db).sender_stats.map (fun r => r.total_emails)).sum =
      (activeRows db).length := by
  refine ⟨?_, ?_, ?_, ?_⟩
  · show (((sendersOf (activeRows db)).map (buildSenderRow (activeRows db))).map
      (fun r => r.email)).Nodup
    rw [map_email_buildSenderRow]
    exact List.nodup_dedup _
  · intro s
    show s ∈ ((sendersOf (activeRows db)).map (buildSenderRow (activeRows db))).map
        (fun r => r.email) ↔ _
    rw [map_email_buildSenderRow]
    unfold sendersOf
    rw [List.mem_dedup, List.mem_map]
  · intro r hr
    obtain ⟨s, hs, hrs⟩ := List.mem_map.mp hr
    subst hrs
    exact ⟨rfl, rfl, rfl, rfl⟩
  · show (((sendersOf (activeRows db)).map (buildSenderRow (activeRows db))).map
      (fun r => r.total_emails)).sum = _
    rw [List.map_map]
    have h : ∀ s ∈ sendersOf (activeRows db),
        ((fun r : SenderStatsRow => r.total_emails) ∘ buildSenderRow (activeRows db)) s =
          ((activeRows db).map (fun e => e.sender_email)).count s := by
      intro s _
      show ((activeRows db).filter (fun e => decide (e.sender_email = s))).length = _
      rw [count_map_key, List.countP_eq_length_filter]
    rw [List.map_congr_left h]
    unfold sendersOf
    rw [List.sum_map_count_dedup_eq_length, List.length_map]

/-- Witness for C2 at a concrete three-message store. -/
theorem refresh_sender_stats_partitions_witness :
    (("x@y.com" ∈ (refreshSenderStats dbC6).sender_stats.map (fun r => r.email)) ↔
      ∃ e ∈ activeRows dbC6, e.sender_email = "x@y.com") ∧
    ((refreshSenderStats dbC6).sender_stats.map (fun r => r.total_emails)).sum =
      (activeRows dbC6).length :=
  ⟨(refresh_sender_stats_partitions dbC6).2.1 "x@y.com",
   (refresh_sender_stats_partitions dbC6).2.2.2⟩

/-- Right projection of a Boolean conjunction being true. -/
theorem bool_and_right {a b : Bool} (h : (a && b) = true) : b = true := by
  cases a <;> cases b <;> simp_all

/-- Marking ids deleted never changes a row's id. -/
theorem markUpd_id (ids : List String) (e : Email) :
    (if e.id ∈ ids then { e with user_action := some "delete" } else e).id = e.id := by
  split <;> rfl

/-- Marking ids deleted never changes a row's sender address. -/
theorem markUpd_sender (ids : List String) (e : Email) :
    (if e.id ∈ ids then { e with user_action := some "delete" } else e).sender_email =
      e.sender_email := by
  split <;> rfl

/-- A row stamped with user action delete is not active. -/
theorem isActive_marked_false (e : Email) :
    isActive { e with user_action := some "delete" } = false := rfl

/-- An active row was not logically deleted. -/
theorem isActive_ne_delete (e : Email) (h : isActive e = true) :
    e.user_action ≠ some "delete" := by
  intro hu
  unfold isActive at h
  rw [hu] at h
  simp at h

/-- Physically purging deleted rows leaves the active row set unchanged. -/
theorem activeRows_purge (db : DB) : activeRows (purgeDeleted db) = activeRows db := by
  simp [activeRows, purgeDeleted, List.filter_filter]

/-- Physically purging deleted rows leaves the categorized active row set
unchanged. -/
theorem categorizedActive_purge (db : DB) :
    categorizedActive (purgeDeleted db) = categorizedActive db := by
  simp [categorizedActive, purgeDeleted, List.filter_filter, Bool.and_assoc]

/-- The category rollup is invariant under purging deleted rows. -/
theorem categoryStats_purge (db : DB) :
    categoryStats (purgeDeleted db) = categoryStats db := by
  unfold categoryStats
  rw [categorizedActive_purge]

/-- The grouped-by-sender query is invariant under purging deleted rows. -/
theorem getTopSenderGroups_purge (lim : Nat) (db : DB) :
    getTopSenderGroups lim (purgeDeleted db) = getTopSenderGroups lim db := by
  unfold getTopSenderGroups
  rw [activeRows_purge]

/-- The sender-stats rebuild is invariant under purging deleted rows. -/
theorem refreshSenderStats_purge (db : DB) :
    (refreshSenderStats (purgeDeleted db)).sender_stats =
      (refreshSenderStats db).sender_stats := by
  show (sendersOf (activeRows (purgeDeleted db))).map
      (buildSenderRow (activeRows (purgeDeleted db))) = _
  rw [activeRows_purge]
  rfl

/-- Membership in a filtered, date-ordered, paginated listing implies the
filter predicate. -/
theorem mem_query_pred {p : Email → Bool} {l : List Email} {lim off : Nat} {e : Email}
    (he : e ∈ ((sortByDateDesc (l.filter p)).drop off).take lim) : p e = true :=
  List.of_mem_filter (by
    have h2 := List.mem_of_mem_drop (List.mem_of_mem_take he)
    rwa [sortByDateDesc, sortBy, List.mem_mergeSort] at h2)

/-- Marking ids deleted cannot increase any per-category count. -/
theorem catCount_mark_le (db : DB) (ids : List String) (c : String) :
    statCount (categoryStats (markEmailsDeleted ids db)) c ≤
      statCount (categoryStats db) c := by
  rw [statCount_eq_catCount, statCount_eq_catCount]
  unfold categorizedActive markEmailsDeleted
  rw [List.countP_filter, List.countP_filter, List.countP_map]
  apply List.countP_mono_left
  intro e he h
  simp only [Function.comp_apply] at h
  by_cases hid : e.id ∈ ids
  · exfalso
    rw [if_pos hid] at h
    rw [Bool.and_eq_true, Bool.and_eq_true] at h
    have := h.2.2
    rw [isActive_marked_false] at this
    exact Bool.false_ne_true this
  · rw [if_neg hid] at h
    exact h

/-- C6: `mark_emails_deleted` logically deletes exactly the given ids
without removing rows; the listing queries never return a logically deleted
message; the aggregate queries (grouped-by-sender, category rollup, the
sender-stats rebuild) are invariant under physically purging deleted rows;
and once all of sender X's messages are marked, the rebuilt `sender_stats`
has no row for X, per-category counts do not increase, and X's raw rows
still exist in the `emails` table. -/
theorem mark_deleted_logical (db : DB) (ids : List String) (X : String)
    (hX : ∀ e ∈ db.emails, e.sender_email = X → e.id ∈ ids) :
    ((markEmailsDeleted ids db).emails.map (fun e => e.id) =
      db.emails.map (fun e => e.id)) ∧
    (∀ e ∈ (markEmailsDeleted ids db).emails, e.id ∈ ids →
      e.user_action = some "delete") ∧
    (∀ e ∈ db.emails, e.id ∉ ids → e ∈ (markEmailsDeleted ids db).emails) ∧
    (∀ (rf : String) (lim off : Nat),
      ∀ e ∈ getAllEmails rf lim off (markEmailsDeleted ids db),
      e.user_action ≠ some "delete") ∧
    (∀ (c : EmailCategory) (lim off : Nat),
      ∀ e ∈ getEmailsByCategory c lim off (markEmailsDeleted ids db),
      e.user_action ≠ some "delete") ∧
    (∀ (s : String) (lim off : Nat),
      ∀ e ∈ getEmailsBySender s lim off (markEmailsDeleted ids db),
      e.user_action ≠ some "delete") ∧
    (∀ lim : Nat, getTopSenderGroups lim (purgeDeleted (markEmailsDeleted ids db)) =
      getTopSenderGroups lim (markEmailsDeleted ids db)) ∧
    (categoryStats (purgeDeleted (markEmailsDeleted ids db)) =
      categoryStats (markEmailsDeleted ids db)) ∧
    ((refreshSenderStats (purgeDeleted (markEmailsDeleted ids db))).sender_stats =
      (refreshSenderStats (markEmailsDeleted ids db)).sender_stats) ∧
    (∀ r ∈ (refreshSenderStats (markEmailsDeleted ids db)).sender_stats, r.email ≠ X) ∧
    (∀ c : String, statCount (categoryStats (markEmailsDeleted ids db)) c ≤
      statCount (categoryStats db) c) ∧
    (∀ e ∈ db.emails, ∃ e2 ∈ (markEmailsDeleted ids db).emails, e2.id = e.id) := by
  refine ⟨?_, ?_, ?_, ?_, ?_, ?_, fun lim => getTopSenderGroups_purge lim _,
    categoryStats_purge _, refreshSenderStats_purge _, ?_,
    fun c => catCount_mark_le db ids c, ?_⟩
  · show (db.emails.map _).map _ = _
    rw [List.map_map]
    exact List.map_congr_left (fun e _ => markUpd_id ids e)
  · intro e he hid
    obtain ⟨e0, he0, heq⟩ := List.mem_map.mp he
    by_cases h : e0.id ∈ ids
    · rw [if_pos h] at heq
      rw [← heq]
    · rw [if_neg h] at heq
      subst heq
      exact absurd hid h
  · intro e he hid
    exact List.mem_map.mpr ⟨e, he, by rw [if_neg hid]⟩
  · intro rf lim off e he
    simp only [getAllEmails] at he
    have hp := mem_query_pred he
    by_cases h1 : rf = "read"
    · rw [if_pos h1] at hp
      exact isActive_ne_delete e (bool_and_right hp)
    · rw [if_neg h1] at hp
      by_cases h2 : rf = "unread"
      · rw [if_pos h2] at hp
        exact isActive_ne_delete e (bool_and_right hp)
      · rw [if_neg h2] at hp
        exact isActive_ne_delete e hp
  · intro c lim off e he
    simp only [getEmailsByCategory] at he
    exact isActive_ne_delete e (bool_and_right (mem_query_pred he))
  · intro s lim off e he
    simp only [getEmailsBySender] at he
    exact isActive_ne_delete e (bool_and_right (mem_query_pred he))
  · intro r hr hrX
    obtain ⟨s, hs, hrs⟩ := List.mem_map.mp hr
    rw [← hrs] at hrX
    have hsX : s = X := hrX
    rw [sendersOf, List.mem_dedup, List.mem_map] at hs
    obtain ⟨e, heA, hes⟩ := hs
    rw [activeRows, List.mem_filter] at heA
    obtain ⟨hmem, hact⟩ := heA
    obtain ⟨e0, he0, hup⟩ := List.mem_map.mp hmem
    have hsender : e0.sender_email = X := by
      rw [← hsX, ← hes, ← hup, markUpd_sender]
    have hid := hX e0 he0 hsender
    rw [if_pos hid] at hup
    rw [← hup, isActive_marked_false] at hact
    exact Bool.false_ne_true hact
  · intro e he
    exact ⟨(if e.id ∈ ids then { e with user_action := some "delete" } else e),
      List.mem_map.mpr ⟨e, he, rfl⟩, markUpd_id ids e⟩

/-- Witness for C6: both messages of sender `x@y.com` marked deleted in a
concrete three-message store. -/
theorem mark_deleted_logical_witness :
    (∀ e ∈ dbC6.emails, e.sender_email = "x@y.com" → e.id ∈ (["x1", "x2"] : List String)) ∧
    (∀ r ∈ (refreshSenderStats (markEmailsDeleted ["x1", "x2"] dbC6)).sender_stats,
      r.email ≠ "x@y.com") ∧
    (∀ e ∈ dbC6.emails, ∃ e2 ∈ (markEmailsDeleted ["x1", "x2"] dbC6).emails,
      e2.id = e.id) :=
  ⟨by decide,
   (mark_deleted_logical dbC6 ["x1", "x2"] "x@y.com" (by decide)).2.2.2.2.2.2.2.2.2.1,
   (mark_deleted_logical dbC6 ["x1", "x2"] "x@y.com" (by decide)).2.2.2.2.2.2.2.2.2.2.2⟩

/-- Irreflexivity of the SQLite date order. -/
theorem sqlDateLt_irrefl (a : Option Nat) : sqlDateLt a a = false := by
  cases a <;> simp [sqlDateLt]

/-- Transitivity of the SQLite date order. -/
theorem sqlDateLt_trans (a b c : Option Nat) (h1 : sqlDateLt a b = true)
    (h2 : sqlDateLt b c = true) : sqlDateLt a c = true := by
  cases a <;> cases b <;> cases c <;> simp [sqlDateLt] at * <;> omega

/-- Transitivity of the complementary (at-least) relation of the SQLite
date order. -/
theorem sqlDateLt_not_trans (x a m : Option Nat) (h1 : ¬ sqlDateLt a x = true)
    (h2 : ¬ sqlDateLt m a = true) : ¬ sqlDateLt m x = true := by
  cases a <;> cases x <;> cases m <;> simp [sqlDateLt] at * <;> omega

/-- The latest-row fold yields `none` only from `none` over the empty
list. -/
theorem foldl_latestPick_eq_none (l : List Email) (acc : Option Email)
    (h : l.foldl latestPick acc = none) : acc = none ∧ l = [] := by
  induction l generalizing acc with
  | nil => exact ⟨h, rfl⟩
  | cons x t ih =>
    exfalso
    rcases ih (latestPick acc x) h with ⟨h1, _⟩
    cases acc with
    | none => simp [latestPick] at h1
    | some m =>
      simp only [latestPick] at h1
      split at h1 <;> simp_all

/-- The latest-row fold returns its seed or a list element. -/
theorem foldl_latestPick_mem (l : List Email) (acc : Option Email) (m : Email)
    (h : l.foldl latestPick acc = some m) : acc = some m ∨ m ∈ l := by
  induction l generalizing acc with
  | nil => exact Or.inl h
  | cons x t ih =>
    rcases ih (latestPick acc x) h with h1 | h1
    · cases acc with
      | none =>
        simp only [latestPick, Option.some.injEq] at h1
        exact Or.inr (h1 ▸ List.mem_cons_self x t)
      | some a =>
        simp only [latestPick] at h1
        by_cases c : sqlDateLt a.date x.date = true
        · rw [if_pos c] at h1
          exact Or.inr ((Option.some.injEq _ _ ▸ h1) ▸ List.mem_cons_self x t)
        · rw [if_neg c] at h1
          exact Or.inl h1
    · exact Or.inr (List.mem_cons_of_mem _ h1)

/-- The latest-row fold never falls below its seed's date. -/
theorem foldl_latestPick_ge_acc (l : List Email) (a m : Email)
    (h : l.foldl latestPick (some a) = some m) : ¬ sqlDateLt m.date a.date = true := by
  induction l generalizing a with
  | nil =>
    simp only [List.foldl_nil, Option.some.injEq] at h
    subst h
    simp [sqlDateLt_irrefl]
  | cons x t ih =>
    by_cases c : sqlDateLt a.date x.date = true
    · have h' : t.foldl latestPick (some x) = some m := by
        simpa [latestPick, c] using h
      have h1 := ih x h'
      intro hma
      exact h1 (sqlDateLt_trans m.date a.date x.date hma c)
    · have h' : t.foldl latestPick (some a) = some m := by
        simpa [latestPick, c] using h
      exact ih a h'

/-- The latest-row fold dominates the date of every list element. -/
theorem foldl_latestPick_max (l : List Email) (acc : Option Email) (m : Email)
    (h : l.foldl latestPick acc = some m) :
    ∀ e ∈ l, ¬ sqlDateLt m.date e.date = true := by
  induction l generalizing acc with
  | nil => intro e he; cases he
  | cons x t ih =>
    intro e he
    rcases List.mem_cons.mp he with hx | ht
    · subst hx
      cases acc with
      | none =>
        have h' : t.foldl latestPick (some e) = some m := h
        exact foldl_latestPick_ge_acc t e m h'
      | some a =>
        by_cases c : sqlDateLt a.date e.date = true
        · have h' : t.foldl latestPick (some e) = some m := by
            simpa [latestPick, c] using h
          exact foldl_latestPick_ge_acc t e m h'
        · have h' : t.foldl latestPick (some a) = some m := by
            simpa [latestPick, c] using h
          exact sqlDateLt_not_trans e.date a.date m.date c
            (foldl_latestPick_ge_acc t a m h')
    · exact ih (latestPick acc x) h e ht

/-- Replacing the seed by one with the same date does not change the
latest-row fold once some element strictly exceeds that date. -/
theorem foldl_latestPick_congr (x x' : Email) (hd : x.date = x'.date) :
    ∀ l : List Email, (∃ y ∈ l, sqlDateLt x.date y.date = true) →
      l.foldl latestPick (some x) = l.foldl latestPick (some x') := by
  intro l
  induction l with
  | nil =>
    rintro ⟨y, hy, _⟩
    cases hy
  | cons z t ih =>
    rintro ⟨y, hy, hlt⟩
    by_cases c : sqlDateLt x.date z.date = true
    · have c' : sqlDateLt x'.date z.date = true := by rw [← hd]; exact c
      show (t.foldl latestPick (latestPick (some x) z)) =
        (t.foldl latestPick (latestPick (some x') z))
      rw [show latestPick (some x) z = some z by simp [latestPick, c],
        show latestPick (some x') z = some z by simp [latestPick, c']]
    · have c' : ¬ sqlDateLt x'.date z.date = true := by rw [← hd]; exact c
      show (t.foldl latestPick (latestPick (some x) z)) =
        (t.foldl latestPick (latestPick (some x') z))
      rw [show latestPick (some x) z = some x by simp [latestPick, c],
        show latestPick (some x') z = some x' by simp [latestPick, c']]
      apply ih
      rcases List.mem_cons.mp hy with h | h
      · exact absurd (h ▸ hlt) c
      · exact ⟨y, h, hlt⟩

/-- Replacing a strictly dominated element by one with the same date does
not change the latest-row fold. -/
theorem foldl_latestPick_replace (l₁ l₂ : List Email) (m m' : Email)
    (hd : m.date = m'.date)
    (hw : ∃ y ∈ l₁ ++ l₂, sqlDateLt m.date y.date = true) :
    (l₁ ++ m :: l₂).foldl latestPick none = (l₁ ++ m' :: l₂).foldl latestPick none := by
  rw [List.foldl_append, List.foldl_append, List.foldl_cons, List.foldl_cons]
  obtain ⟨y, hy, hlt⟩ := hw
  cases hA : l₁.foldl latestPick none with
  | none =>
    obtain ⟨_, hnil⟩ := foldl_latestPick_eq_none l₁ none hA
    subst hnil
    rw [show latestPick none m = some m from rfl, show latestPick none m' = some m' from rfl]
    apply foldl_latestPick_congr m m' hd
    rcases List.mem_append.mp hy with h | h
    · cases h
    · exact ⟨y, h, hlt⟩
  | some a =>
    by_cases c : sqlDateLt a.date m.date = true
    · have c' : sqlDateLt a.date m'.date = true := by rw [← hd]; exact c
      rw [show latestPick (some a) m = some m by simp [latestPick, c],
        show latestPick (some a) m' = some m' by simp [latestPick, c']]
      apply foldl_latestPick_congr m m' hd
      rcases List.mem_append.mp hy with h | h
      · exfalso
        have hmax := foldl_latestPick_max l₁ none a hA y h
        exact hmax (sqlDateLt_trans a.date m.date y.date c hlt)
      · exact ⟨y, h, hlt⟩
    · have c' : ¬ sqlDateLt a.date m'.date = true := by rw [← hd]; exact c
      rw [show latestPick (some a) m = some a by simp [latestPick, c],
        show latestPick (some a) m' = some a by simp [latestPick, c']]

/-- When a sender has at least one message, the latest-message sample query
returns a message of that sender whose date no message of the sender
exceeds. -/
theorem latestEmailOf_spec (emails : List Email) (s : String)
    (hne : ∃ e ∈ emails, e.sender_email = s) :
    ∃ m, latestEmailOf emails s = some m ∧ m ∈ emails ∧ m.sender_email = s ∧
      ∀ e ∈ emails, e.sender_email = s → ¬ sqlDateLt m.date e.date = true := by
  obtain ⟨e0, he0, hes0⟩ := hne
  have he0f : e0 ∈ emails.filter (fun e => decide (e.sender_email = s)) :=
    List.mem_filter.mpr ⟨he0, by simpa using hes0⟩
  unfold latestEmailOf
  cases hfold : (emails.filter (fun e => decide (e.sender_email = s))).foldl latestPick none with
  | none =>
    obtain ⟨_, hnil⟩ := foldl_latestPick_eq_none _ none hfold
    rw [hnil] at he0f
    cases he0f
  | some m =>
    have hmem : m ∈ emails.filter (fun e => decide (e.sender_email = s)) := by
      rcases foldl_latestPick_mem _ none m hfold with h | h
      · exact Option.noConfusion h
      · exact h
    refine ⟨m, rfl, (List.mem_filter.mp hmem).1, ?_, ?_⟩
    · simpa using (List.mem_filter.mp hmem).2
    · intro e he hes
      exact foldl_latestPick_max _ none m hfold e
        (List.mem_filter.mpr ⟨he, by simpa using hes⟩)

/-- Enriching a subscription row with unsubscribe fields preserves its
sender key. -/
theorem enrich_sender (db : DB) (r : SubscriptionRow) :
    (match latestEmailOf db.emails r.sender_email with
      | some m => { r with unsubscribe_link := m.unsubscribe_link,
                           unsubscribe_email := m.unsubscribe_email }
      | none => r).sender_email = r.sender_email := by
  cases latestEmailOf db.emails r.sender_email <;> rfl

/-- Every subscription aggregate row's sender occurs in the store. -/
theorem subsRows_sender_exists (db : DB) (r : SubscriptionRow) (hr : r ∈ subsRows db) :
    ∃ e ∈ db.emails, e.sender_email = r.sender_email := by
  unfold subsRows at hr
  rw [List.mem_filter] at hr
  obtain ⟨hmem, _⟩ := hr
  obtain ⟨s, hs, hrs⟩ := List.mem_map.mp hmem
  rw [List.mem_dedup, List.mem_map] at hs
  obtain ⟨e, herows, hes⟩ := hs
  exact ⟨e, (List.mem_filter.mp herows).1, by rw [hes, ← hrs]⟩

/-- A sender has a qualifying subscription aggregate row exactly when it
has more than one active newsletter/promotions message. -/
theorem subsRows_sender_iff (db : DB) (s : String) :
    (∃ r ∈ subsRows db, r.sender_email = s) ↔
      1 < ((db.emails.filter (fun e => inSubCats e && isActive e)).filter
        (fun e => decide (e.sender_email = s))).length := by
  unfold subsRows
  constructor
  · rintro ⟨r, hr, hrs⟩
    rw [List.mem_filter] at hr
    obtain ⟨hmem, hcount⟩ := hr
    obtain ⟨s0, hs0, hrs0⟩ := List.mem_map.mp hmem
    have hs0s : s0 = s := by rw [← hrs, ← hrs0]
    subst hs0s
    have hc : r.count = ((db.emails.filter (fun e => inSubCats e && isActive e)).filter
        (fun e => decide (e.sender_email = s0))).length := by rw [← hrs0]
    rw [← hc]
    simpa using hcount
  · intro h
    have hne : ((db.emails.filter (fun e => inSubCats e && isActive e)).filter
        (fun e => decide (e.sender_email = s))) ≠ [] := by
      intro h0
      rw [h0] at h
      simp at h
    obtain ⟨e, hef⟩ := List.exists_mem_of_ne_nil _ hne
    have hes : e.sender_email = s := by simpa using (List.mem_filter.mp hef).2
    have hsin : s ∈ ((db.emails.filter (fun e => inSubCats e && isActive e)).map
        (fun e => e.sender_email)).dedup :=
      List.mem_dedup.mpr (List.mem_map.mpr ⟨e, (List.mem_filter.mp hef).1, hes⟩)
    refine ⟨_, List.mem_filter.mpr ⟨List.mem_map.mpr ⟨s, hsin, rfl⟩, ?_⟩, rfl⟩
    simpa using h

/-- Enriching a subscription row with unsubscribe fields preserves its
message count. -/
theorem enrich_count (db : DB) (r : SubscriptionRow) :
    (match latestEmailOf db.emails r.sender_email with
      | some m => { r with unsubscribe_link := m.unsubscribe_link,
                           unsubscribe_email := m.unsubscribe_email }
      | none => r).count = r.count := by
  cases latestEmailOf db.emails r.sender_email <;> rfl

/-- Unfolding of `get_subscription_stats`: the qualifying aggregate rows
sorted by count descending, truncated to `limit`, each enriched with the
sampled unsubscribe fields. -/
theorem getSubscriptionStats_eq (db : DB) (limit : Nat) :
    getSubscriptionStats limit db =
      ((sortBy (fun a b => decide (b.count ≤ a.count)) (subsRows db)).take limit).map (fun r =>
        match latestEmailOf db.emails r.sender_email with
        | some m => { r with unsubscribe_link := m.unsubscribe_link,
                             unsubscribe_email := m.unsubscribe_email }
        | none => r) := rfl

/-- Every returned subscription row is the enrichment of a qualifying
aggregate row kept by the truncation, with sender and count preserved. -/
theorem mem_getSubscriptionStats (db : DB) (limit : Nat) (r : SubscriptionRow)
    (hr : r ∈ getSubscriptionStats limit db) :
    ∃ r0, r0 ∈ (sortBy (fun a b => decide (b.count ≤ a.count)) (subsRows db)).take limit ∧
      r0 ∈ subsRows db ∧
      (match latestEmailOf db.emails r0.sender_email with
        | some m => { r0 with unsubscribe_link := m.unsubscribe_link,
                              unsubscribe_email := m.unsubscribe_email }
        | none => r0) = r ∧
      r.sender_email = r0.sender_email ∧ r.count = r0.count := by
  rw [getSubscriptionStats_eq] at hr
  obtain ⟨r0, hr0, hr0r⟩ := List.mem_map.mp hr
  refine ⟨r0, hr0, ?_, hr0r, ?_, ?_⟩
  · have h2 := List.mem_of_mem_take hr0
    rwa [sortBy, List.mem_mergeSort] at h2
  · rw [← hr0r]
    exact enrich_sender db r0
  · rw [← hr0r]
    exact enrich_count db r0

/-- The count-descending comparator sorts the qualifying rows. -/
theorem subsRows_sorted (db : DB) :
    (sortBy (fun a b : SubscriptionRow => decide (b.count ≤ a.count)) (subsRows db)).Pairwise
      (fun a b => decide (b.count ≤ a.count) = true) :=
  List.sorted_mergeSort
    (by
      intro a b c h1 h2
      simp only [decide_eq_true_eq] at *
      omega)
    (by
      intro a b
      rcases Nat.le_total b.count a.count with h | h <;> simp [h])
    (subsRows db)

/-- C3 (amended): `get_subscription_stats` returns the qualifying senders
(those with more than one active newsletter/promotions message) truncated
to the top `limit` by message count — every returned row's sender
qualifies, the number of rows is the minimum of `limit` and the number of
qualifying senders, returned counts are ordered descending, and a
qualifying sender that is not returned never out-counts a returned one —
and whenever at most `limit` senders qualify the returned senders are
exactly the qualifying senders. Every returned row carries the unsubscribe
fields of a maximal-date message of its sender, and replacing the
unsubscribe fields of a message strictly older than another message of the
same sender never changes the sampled unsubscribe values. -/
theorem subscription_stats_amended (db : DB) (limit : Nat) :
    (∀ r ∈ getSubscriptionStats limit db,
      1 < ((db.emails.filter (fun e => inSubCats e && isActive e)).filter
        (fun e => decide (e.sender_email = r.sender_email))).length) ∧
    ((getSubscriptionStats limit db).length = min limit (subsRows db).length) ∧
    (((getSubscriptionStats limit db).map (fun r => r.count)).Pairwise
      (fun a b => b ≤ a)) ∧
    (∀ r ∈ getSubscriptionStats limit db, ∀ q ∈ subsRows db,
      (∀ r2 ∈ getSubscriptionStats limit db, r2.sender_email ≠ q.sender_email) →
      q.count ≤ r.count) ∧
    (∀ r ∈ getSubscriptionStats limit db, ∃ m ∈ db.emails,
      m.sender_email = r.sender_email ∧
      (∀ e ∈ db.emails, e.sender_email = r.sender_email →
        ¬ sqlDateLt m.date e.date = true) ∧
      r.unsubscribe_link = m.unsubscribe_link ∧
      r.unsubscribe_email = m.unsubscribe_email) ∧
    ((subsRows db).length ≤ limit →
      (∀ s : String, (∃ r ∈ getSubscriptionStats limit db, r.sender_email = s) ↔
        1 < ((db.emails.filter (fun e => inSubCats e && isActive e)).filter
          (fun e => decide (e.sender_email = s))).length) ∧
      (((getSubscriptionStats limit db).map (fun r => r.sender_email)).Perm
        ((subsRows db).map (fun r => r.sender_email)))) ∧
    (∀ (pre post : List Email) (m : Email) (l u : Option String),
      db.emails = pre ++ m :: post →
      (∃ y ∈ pre ++ post, y.sender_email = m.sender_email ∧
        sqlDateLt m.date y.date = true) →
      (latestEmailOf (pre ++ ({ m with unsubscribe_link := l, unsubscribe_email := u } : Email) :: post) m.sender_email).map
          (fun x => (x.unsubscribe_link, x.unsubscribe_email)) =
        (latestEmailOf db.emails m.sender_email).map
          (fun x => (x.unsubscribe_link, x.unsubscribe_email))) := by
  refine ⟨?_, ?_, ?_, ?_, ?_, ?_, ?_⟩
  · intro r hr
    obtain ⟨r0, _, hr0sub, _, hsend, _⟩ := mem_getSubscriptionStats db limit r hr
    rw [hsend]
    exact (subsRows_sender_iff db r0.sender_email).mp ⟨r0, hr0sub, rfl⟩
  · rw [getSubscriptionStats_eq, List.length_map, List.length_take, sortBy,
      List.length_mergeSort, inf_eq_min]
  · rw [getSubscriptionStats_eq, List.map_map]
    have hmapeq : ((sortBy (fun a b : SubscriptionRow => decide (b.count ≤ a.count))
          (subsRows db)).take limit).map ((fun r : SubscriptionRow => r.count) ∘ (fun r =>
        match latestEmailOf db.emails r.sender_email with
        | some m => { r with unsubscribe_link := m.unsubscribe_link,
                             unsubscribe_email := m.unsubscribe_email }
        | none => r)) =
        ((sortBy (fun a b : SubscriptionRow => decide (b.count ≤ a.count))
          (subsRows db)).take limit).map (fun r => r.count) :=
      List.map_congr_left (fun r _ => enrich_count db r)
    rw [hmapeq, List.pairwise_map]
    exact ((subsRows_sorted db).sublist (List.take_sublist _ _)).imp
      (fun h => by simpa using h)
  · intro r hr q hq hqnot
    obtain ⟨r0, hr0take, _, _, _, hcount⟩ := mem_getSubscriptionStats db limit r hr
    have hqsorted : q ∈ sortBy (fun a b : SubscriptionRow => decide (b.count ≤ a.count))
        (subsRows db) := by
      rw [sortBy, List.mem_mergeSort]
      exact hq
    have hqsplit : q ∈ (sortBy (fun a b : SubscriptionRow => decide (b.count ≤ a.count))
          (subsRows db)).take limit ++
        (sortBy (fun a b : SubscriptionRow => decide (b.count ≤ a.count))
          (subsRows db)).drop limit := by
      rw [List.take_append_drop]
      exact hqsorted
    rcases List.mem_append.mp hqsplit with h | h
    · exact absurd (enrich_sender db q)
        (hqnot _ (by rw [getSubscriptionStats_eq]; exact List.mem_map.mpr ⟨q, h, rfl⟩))
    · have hsor2 : ((sortBy (fun a b : SubscriptionRow => decide (b.count ≤ a.count))
            (subsRows db)).take limit ++
          (sortBy (fun a b : SubscriptionRow => decide (b.count ≤ a.count))
            (subsRows db)).drop limit).Pairwise
          (fun a b => decide (b.count ≤ a.count) = true) := by
        rw [List.take_append_drop]
        exact subsRows_sorted db
      have hcross := (List.pairwise_append.mp hsor2).2.2 r0 hr0take q h
      rw [hcount]
      simpa using hcross
  · intro r hr
    obtain ⟨r0, _, hr0sub, henr, hsend, _⟩ := mem_getSubscriptionStats db limit r hr
    obtain ⟨m, hfold, hm, hms, hmax⟩ :=
      latestEmailOf_spec db.emails r0.sender_email (subsRows_sender_exists db r0 hr0sub)
    simp only [hfold] at henr
    refine ⟨m, hm, ?_, ?_, ?_, ?_⟩
    · rw [hsend]
      exact hms
    · intro e he hes
      apply hmax e he
      rw [hes, hsend]
    · rw [← henr]
    · rw [← henr]
  · intro hlim
    have htake : (sortBy (fun a b : SubscriptionRow => decide (b.count ≤ a.count))
          (subsRows db)).take limit =
        sortBy (fun a b : SubscriptionRow => decide (b.count ≤ a.count)) (subsRows db) := by
      apply List.take_of_length_le
      rw [sortBy, List.length_mergeSort]
      exact hlim
    constructor
    · intro s
      rw [← subsRows_sender_iff db s]
      constructor
      · rintro ⟨r, hr, hrs⟩
        obtain ⟨r0, _, hr0sub, _, hsend, _⟩ := mem_getSubscriptionStats db limit r hr
        exact ⟨r0, hr0sub, by rw [← hrs, hsend]⟩
      · rintro ⟨r0, hr0, hr0s⟩
        refine ⟨(match latestEmailOf db.emails r0.sender_email with
          | some m => { r0 with unsubscribe_link := m.unsubscribe_link,
                                unsubscribe_email := m.unsubscribe_email }
          | none => r0), ?_, ?_⟩
        · rw [getSubscriptionStats_eq, htake]
          exact List.mem_map.mpr ⟨r0, by rw [sortBy, List.mem_mergeSort]; exact hr0, rfl⟩
        · rw [← hr0s]
          exact enrich_sender db r0
    · rw [getSubscriptionStats_eq, htake, List.map_map]
      have hcongr : ∀ r ∈ sortBy (fun a b => decide (b.count ≤ a.count)) (subsRows db),
          ((fun r : SubscriptionRow => r.sender_email) ∘ (fun r =>
            match latestEmailOf db.emails r.sender_email with
            | some m => { r with unsubscribe_link := m.unsubscribe_link,
                                 unsubscribe_email := m.unsubscribe_email }
            | none => r)) r = (fun r : SubscriptionRow => r.sender_email) r :=
        fun r _ => enrich_sender db r
      rw [List.map_congr_left hcongr]
      exact (List.mergeSort_perm (subsRows db) _).map _
  · intro pre post m l u hsplit hex
    obtain ⟨y, hy, hys, hlt⟩ := hex
    rw [hsplit]
    unfold latestEmailOf
    have hf1 : (pre ++ m :: post).filter (fun e => decide (e.sender_email = m.sender_email)) =
        pre.filter (fun e => decide (e.sender_email = m.sender_email)) ++ m ::
        post.filter (fun e => decide (e.sender_email = m.sender_email)) := by
      simp [List.filter_append, List.filter_cons]
    have hf2 : (pre ++ ({ m with unsubscribe_link := l, unsubscribe_email := u } : Email)
          :: post).filter (fun e => decide (e.sender_email = m.sender_email)) =
        pre.filter (fun e => decide (e.sender_email = m.sender_email)) ++
        ({ m with unsubscribe_link := l, unsubscribe_email := u } : Email) ::
        post.filter (fun e => decide (e.sender_email = m.sender_email)) := by
      simp [List.filter_append, List.filter_cons]
    rw [hf1, hf2]
    have hwit : ∃ z ∈ pre.filter (fun e => decide (e.sender_email = m.sender_email)) ++
        post.filter (fun e => decide (e.sender_email = m.sender_email)),
        sqlDateLt m.date z.date = true := by
      rcases List.mem_append.mp hy with h | h
      · exact ⟨y, List.mem_append_left _ (List.mem_filter.mpr ⟨h, by simpa using hys⟩), hlt⟩
      · exact ⟨y, List.mem_append_right _ (List.mem_filter.mpr ⟨h, by simpa using hys⟩), hlt⟩
    rw [foldl_latestPick_replace _ _
      ({ m with unsubscribe_link := l, unsubscribe_email := u } : Email) m rfl hwit]

unseal List.merge List.mergeSort in
/-- C3 counterexample: with limit 1 and two qualifying senders, sender
`b@x.com` has two active newsletter messages yet is absent from the
result — so `get_subscription_stats` does not return every sender with
more than one active newsletter/promotions message. -/
theorem subscription_stats_counterexample :
    1 < ((dbC3.emails.filter (fun e => inSubCats e && isActive e)).filter
      (fun e => decide (e.sender_email = "b@x.com"))).length ∧
    ∀ r ∈ getSubscriptionStats 1 dbC3, r.sender_email ≠ "b@x.com" := by
  decide

/-- Witness for C3 (amended): the truncated regime at limit 1 and the
no-truncation regime at limit 2, at a concrete store. -/
theorem subscription_stats_amended_witness :
    ((getSubscriptionStats 1 dbC3).length = min 1 (subsRows dbC3).length) ∧
    ((subsRows dbC3).length ≤ 2 ∧
      (((getSubscriptionStats 2 dbC3).map (fun r => r.sender_email)).Perm
        ((subsRows dbC3).map (fun r => r.sender_email)))) :=
  ⟨(subscription_stats_amended dbC3 1).2.1,
   ⟨by decide, ((subscription_stats_amended dbC3 2).2.2.2.2.2.1 (by decide)).2⟩⟩

end MailCleaner
